import Mathlib

/-!
# Verification of the trip_agent memory and streaming subsystem

This development embeds the conversational-memory and streaming-orchestration
core of the repository (src/workflow/agent.py, src/workflow/workflow.py,
src/workflow/streaming_handler.py, src/workflow/tools/) as executable Lean
definitions, and proves or refutes the specification claims about it.

Python strings are embedded as `String`, Python lists as `List`, Python dicts
keyed by strings as association lists (insertion order preserved, assignment
replaces in place), machine integers as `Int` (Python ints are unbounded, so no
modular wrap is needed), and wall-clock timestamps as a `Bool` "has been set"
flag (no claim inspects the actual time value).
-/

namespace TripAgent

/-! ## String scanning primitives

Python string operations (`in`, `split`, `replace`, `startswith`, `strip`)
are embedded by structural recursion on character lists, with an explicit
fuel bounded by the string length, so that every definition evaluates by
kernel reduction on concrete inputs. -/

/-- Is the first list a prefix of the second? -/
def isPrefixCL : List Char → List Char → Bool
  | [], _ => true
  | _ :: _, [] => false
  | a :: as, b :: bs => a = b && isPrefixCL as bs

/-- Drop the first list from the front of the second, when it is a prefix. -/
def dropPrefixCL : List Char → List Char → Option (List Char)
  | [], s => some s
  | _ :: _, [] => none
  | a :: as, b :: bs => if a = b then dropPrefixCL as bs else none

/-- Left-to-right, non-overlapping split on a non-empty separator
(Python `s.split(sep)` / Lean `String.splitOn` semantics). -/
def splitGo (sep : List Char) : Nat → List Char → List Char → List (List Char)
  | 0, s, acc => [acc.reverse ++ s]
  | fuel + 1, s, acc =>
    match s with
    | [] => [acc.reverse]
    | c :: rest =>
      match dropPrefixCL sep s with
      | some rem => acc.reverse :: splitGo sep fuel rem []
      | none => splitGo sep fuel rest (c :: acc)

/-- Python `s.split(sep)` for non-empty `sep`. -/
def splitOnStr (s sep : String) : List String :=
  (splitGo sep.data (s.data.length + 1) s.data []).map (fun l => ⟨l⟩)

/-- Python `pat in s` for non-empty `pat`. -/
def containsStr (s pat : String) : Bool :=
  (splitOnStr s pat).length != 1

/-- Left-to-right, non-overlapping replacement of every occurrence
(Python `s.replace(pat, rep)`). -/
def replaceGo (pat rep : List Char) : Nat → List Char → List Char
  | 0, s => s
  | fuel + 1, s =>
    match s with
    | [] => []
    | c :: rest =>
      match dropPrefixCL pat s with
      | some rem => rep ++ replaceGo pat rep fuel rem
      | none => c :: replaceGo pat rep fuel rest

/-- Python `s.replace(pat, rep)` for non-empty `pat`. -/
def replaceStr (s pat rep : String) : String :=
  ⟨replaceGo pat.data rep.data (s.data.length + 1) s.data⟩

/-- Python `s.startswith(pat)`. -/
def startsWithStr (s pat : String) : Bool :=
  isPrefixCL pat.data s.data

/-- Python `s.strip()`. -/
def trimStr (s : String) : String :=
  ⟨((s.data.dropWhile Char.isWhitespace).reverse.dropWhile
    Char.isWhitespace).reverse⟩

/-- Join a list of strings with a separator. -/
def intercalateStr (sep : String) : List String → String
  | [] => ""
  | [x] => x
  | x :: xs => x ++ sep ++ intercalateStr sep xs

/-! ## Data model: messages, statistics, agent state (agent.py) -/

/-- Message role: `HumanMessage` or `AIMessage` from langchain_core.messages. -/
inductive Role where
  | human
  | ai
deriving DecidableEq

/-- One chat message; ordering inside a session log is insertion order. -/
structure Msg where
  role : Role
  content : String
deriving DecidableEq

/-- The `self.memory_stats` dict of `Agent.__init__` / `Agent.clear_memory`.
`lastSummarization` and `lastUpdated` model the isoformat timestamps as
"has been recorded" flags. -/
structure MemStats where
  totalMessages : Nat
  summarizationsCount : Nat
  bufferSize : Nat
  summarizationThreshold : Int
  lastSummarization : Bool
  lastUpdated : Bool
deriving DecidableEq

/-- The mutable attributes of `Agent` relevant to memory (agent.py).
`Agent.__init__` assigns exactly the attributes llm, buffer_size,
summarization_threshold, memory_stats, session_histories, current_session_id,
tools, prompt, agent, agent_executor, agent_with_history; the LLM and executor
objects are external capabilities and are not part of the memory state. -/
structure AgentState where
  bufferSize : Nat
  summarizationThreshold : Int
  memoryStats : MemStats
  sessionHistories : List (String × List Msg)
  currentSessionId : String
deriving DecidableEq

/-- Fresh stats dict, as built both in `Agent.__init__` and `Agent.clear_memory`
(neither dict carries a last_updated entry). -/
def initStats (bufferSize : Nat) (threshold : Int) : MemStats :=
  { totalMessages := 0
    summarizationsCount := 0
    bufferSize := bufferSize
    summarizationThreshold := threshold
    lastSummarization := false
    lastUpdated := false }

/-- `Agent.__init__` memory state: defaults buffer_size=8,
summarization_threshold=6, and the default session pre-created. -/
def initAgent (bufferSize : Nat) (threshold : Int) : AgentState :=
  { bufferSize := bufferSize
    summarizationThreshold := threshold
    memoryStats := initStats bufferSize threshold
    sessionHistories := [("default_session", [])]
    currentSessionId := "default_session" }

/-- Python dict lookup on the session_histories dict. -/
def histLookup : List (String × List Msg) → String → Option (List Msg)
  | [], _ => none
  | (k, v) :: rest, sid => if k = sid then some v else histLookup rest sid

/-- Python dict assignment: replace in place if the key exists, else append. -/
def histSet : List (String × List Msg) → String → List Msg → List (String × List Msg)
  | [], sid, msgs => [(sid, msgs)]
  | (k, v) :: rest, sid, msgs =>
      if k = sid then (k, msgs) :: rest else (k, v) :: histSet rest sid msgs

/-- The messages currently stored for a session (empty if the session is
unknown; `get_session_history` would lazily create it). -/
def histMsgs (st : AgentState) (sid : String) : List Msg :=
  (histLookup st.sessionHistories sid).getD []

/-- `Agent.get_session_history`: returns the session history, lazily creating
an empty one for an unseen session_id (a mutation of the store). -/
def getSessionHistoryState (st : AgentState) (sid : String) : AgentState × List Msg :=
  match histLookup st.sessionHistories sid with
  | some m => (st, m)
  | none => ({ st with sessionHistories := st.sessionHistories ++ [(sid, [])] }, [])

/-- Python `session_id if session_id is not None else self.current_session_id`. -/
def resolveSid (st : AgentState) (osid : Option String) : String :=
  osid.getD st.currentSessionId

/-- The stats update of `Agent.save_context_with_stats`: total_messages is
bumped by 2 and the update time recorded; then, if the appended log holds
more than `summarization_threshold * 2` messages, summarizations_count is
bumped and last_summarization recorded. -/
def bumpStats (stats : MemStats) (msgsLen : Nat) (threshold : Int) : MemStats :=
  if (msgsLen : Int) > threshold * 2 then
    { stats with
      totalMessages := stats.totalMessages + 2
      lastUpdated := true
      summarizationsCount := stats.summarizationsCount + 1
      lastSummarization := true }
  else
    { stats with
      totalMessages := stats.totalMessages + 2
      lastUpdated := true }

/-- `Agent.save_context_with_stats`: append the Human then the AI message to
the session's log and update the stats (`bumpStats`).  No message is ever
removed and no summary text is stored: the "summarization" is only the
counter bump (simulated summarization). -/
def saveContextWithStats (st : AgentState) (osid : Option String)
    (userText aiText : String) : AgentState :=
  let sid := resolveSid st osid
  let st1 := (getSessionHistoryState st sid).1
  let msgs := (getSessionHistoryState st sid).2
    ++ [⟨Role.human, userText⟩, ⟨Role.ai, aiText⟩]
  { st1 with
    sessionHistories := histSet st1.sessionHistories sid msgs
    memoryStats := bumpStats st1.memoryStats msgs.length st1.summarizationThreshold }

/-- The history string built by `Agent.get_conversation_summary`. -/
def renderHistory (msgs : List Msg) : String :=
  msgs.foldl
    (fun acc m =>
      acc ++ (if m.role = Role.human then "Human: " else "Assistant: ")
        ++ m.content ++ "\n")
    ""

/-- Return shape of `Agent.get_conversation_summary` (the `read` operation). -/
structure ReadResult where
  summary : String
  recentMessages : List Msg
  history : String
  stats : MemStats
  currentBufferCount : Nat
  hasSummary : Bool
deriving DecidableEq

/-- `Agent.get_conversation_summary`: a read of the session.  The summary is
recomputed on every read: it is the exchange-count placeholder exactly when
the log holds more than `summarization_threshold` messages, and the empty
string otherwise.  Reading an unseen session lazily creates it. -/
def getConversationSummary (st : AgentState) (osid : Option String) :
    AgentState × ReadResult :=
  let sid := resolveSid st osid
  let st1 := (getSessionHistoryState st sid).1
  let msgs := (getSessionHistoryState st sid).2
  let summary :=
    if (msgs.length : Int) > st1.summarizationThreshold then
      "Conversation with " ++ toString (msgs.length / 2)
        ++ " exchanges covering various topics."
    else ""
  (st1,
    { summary := summary
      recentMessages := msgs
      history := renderHistory msgs
      stats := st1.memoryStats
      currentBufferCount := msgs.length
      hasSummary := summary ≠ "" })

/-- `Agent.set_max_token_limit` (the threshold administration call exposed to
the façade as set_buffer_threshold / set_summarization_threshold): it performs
no validation whatsoever — any integer is accepted and stored. -/
def setMaxTokenLimit (st : AgentState) (n : Int) : AgentState :=
  { st with
    summarizationThreshold := n
    memoryStats := { st.memoryStats with summarizationThreshold := n } }

/-- `Agent.clear_memory`: replace the session's history with a fresh empty one
(only when the session already exists — an unknown session is not created),
and reset the stats dict, retaining the configured buffer_size and
summarization_threshold. -/
def clearMemory (st : AgentState) (osid : Option String) : AgentState :=
  { st with
    sessionHistories :=
      if (histLookup st.sessionHistories (resolveSid st osid)).isSome then
        histSet st.sessionHistories (resolveSid st osid) []
      else st.sessionHistories
    memoryStats := initStats st.bufferSize st.summarizationThreshold }

/-- `Agent.update_summary`: manual summarization pass; again only simulated. -/
def updateSummary (st : AgentState) (osid : Option String) : AgentState × String :=
  let sid := resolveSid st osid
  let st1 := (getSessionHistoryState st sid).1
  let msgs := (getSessionHistoryState st sid).2
  if (msgs.length : Int) > st1.summarizationThreshold then
    let stats := { st1.memoryStats with
      summarizationsCount := st1.memoryStats.summarizationsCount + 1
      lastSummarization := true }
    ({ st1 with memoryStats := stats },
      "Conversation with " ++ toString (msgs.length / 2)
        ++ " exchanges covering various topics and tool usage.")
  else
    (st1, "No summary needed yet - conversation is still short.")

/-! ## Tool names (src/workflow/tools/) -/

/-- `WeatherTool.name` in src/workflow/tools/weather_tool.py. -/
def weatherToolName : String := "weather"

/-- `TimeTool.name` in src/workflow/tools/time_tool.py. -/
def timeToolName : String := "time"

/-- `CityFactsTool.name` in src/workflow/tools/city_facts_tool.py. -/
def cityFactsToolName : String := "city_facts"

/-- The tools `Agent.__init__` registers with the ReAct agent and its executor
(`self.tools = [WeatherTool(), TimeTool(), CityFactsTool()]`), identified by
their registered names.  These are the only names under which the executor can
dispatch a tool and obtain its structured (dict) result; an action naming any
other tool is answered by the executor's invalid-tool string observation. -/
def agentToolNames : List String := [weatherToolName, timeToolName, cityFactsToolName]

/-- The CamelCase names `Agent.process_input` filters on when building
`function_calls` and when synthesizing the iteration-cap fallback response. -/
def camelCaseToolNames : List String := ["WeatherTool", "TimeTool", "CityFactsTool"]

/-! ## Turn Orchestrator (`Agent.process_input`)

The AgentExecutor / LLM is an external capability, so a turn is parameterized
by its outcome: either a clean return (final output string plus the recorded
intermediate steps) or a raised exception (its string form). -/

/-- A tool observation: the executor hands `process_input` either a plain
string (e.g. the invalid-tool message) or a structured dict. -/
inductive Obs where
  | str (s : String)
  | dict (fields : List (String × String))
deriving DecidableEq

/-- Python `isinstance(observation, dict)`. -/
def Obs.isDict : Obs → Bool
  | .str _ => false
  | .dict _ => true

/-- Python `observation.get(key, "")` (only reached on dict observations). -/
def Obs.get (o : Obs) (k : String) : String :=
  match o with
  | .str _ => ""
  | .dict fs => (fs.lookup k).getD ""

/-- One recorded intermediate step `(action, observation)`: the action carries
the tool name the model chose, its string input, and the raw thought log. -/
structure AgentStep where
  tool : String
  toolInput : String
  observation : Obs
  log : String
deriving DecidableEq

/-- Outcome of `self.agent_with_history.invoke(...)`: a clean result dict
(`output`, `intermediate_steps`) or a raised exception rendered by `str(e)`. -/
inductive ExecOutcome where
  | clean (output : String) (steps : List AgentStep)
  | raiseErr (msg : String)
deriving DecidableEq

/-- A `{"tool": ..., "parameters": {"city": ...}}` entry of `function_calls`. -/
structure FunctionCall where
  tool : String
  city : String
deriving DecidableEq

/-- A reasoning-step entry of `tool_calls` (kept for backward compatibility). -/
structure ReasoningStep where
  thought : String
  action : String
  actionInput : String
  observation : Obs
deriving DecidableEq

/-- The dict returned by `Agent.process_input`.  The unmatched-error branch
returns a dict without a function_calls key, hence the `Option`. -/
structure TurnRes where
  response : String
  toolCalls : List ReasoningStep
  reasoning : String
  functionCallsOpt : Option (List FunctionCall)
deriving DecidableEq

/-- The exact output string AgentExecutor produces on hitting the
iteration cap. -/
def stopMessage : String := "Agent stopped due to iteration limit or time limit."

/-- The observation-collection loop of the iteration-cap fallback: each
matching step overwrites the corresponding slot, so the last matching step of
each kind wins.  Only steps whose tool name is one of the CamelCase names and
whose observation is a dict contribute. -/
def collectObservations (steps : List AgentStep) : String × String × String :=
  steps.foldl
    (fun acc step =>
      let cf := acc.1
      let wi := acc.2.1
      let ti := acc.2.2
      if step.tool == "CityFactsTool" && step.observation.isDict then
        (step.observation.get "summary", wi, ti)
      else if step.tool == "WeatherTool" && step.observation.isDict then
        let w := step.observation
        (cf,
          "Currently " ++ w.get "temperature" ++ " and " ++ w.get "weather"
            ++ ". " ++ "Humidity is " ++ w.get "humidity"
            ++ " with wind speed of " ++ w.get "wind_speed" ++ ".",
          ti)
      else if step.tool == "TimeTool" && step.observation.isDict then
        let t := step.observation
        (cf, wi,
          "The local time is " ++ t.get "datetime" ++ " (" ++ t.get "timezone" ++ ").")
      else acc)
    ("", "", "")

/-- The iteration-cap rewrite of the output (`process_input`, clean branch):
only when the output is exactly the stop message and at least one observation
slot is non-empty is the output replaced by the three slots joined with
`"\n\n"` (the separators are emitted unconditionally). -/
def rewriteOnCap (output : String) (steps : List AgentStep) : String :=
  if output == stopMessage then
    let c := collectObservations steps
    if c.1 ≠ "" ∨ c.2.1 ≠ "" ∨ c.2.2 ≠ "" then
      c.1 ++ "\n\n" ++ c.2.1 ++ "\n\n" ++ c.2.2
    else output
  else output

/-- Thinking extraction from the first intermediate step's log. -/
def extractThinking (steps : List AgentStep) : String :=
  match steps with
  | [] => "To help you with your request, I\x27ll gather some relevant information."
  | s :: _ =>
    let firstLine := (splitOnStr s.log "\n").headD ""
    if startsWithStr firstLine "Thought:" then
      replaceStr firstLine "Thought: " ""
    else s.log

/-- The function_calls filter of `process_input`: keeps exactly the steps whose
tool name is one of the CamelCase names, with the raw tool input as the city. -/
def extractFunctionCalls (steps : List AgentStep) : List FunctionCall :=
  (steps.filter (fun s => camelCaseToolNames.contains s.tool)).map
    (fun s => ⟨s.tool, s.toolInput⟩)

/-! ### Error-recovery pattern extraction (the `except` branch)

`re.search` with the lazy patterns is embedded via first-occurrence string
decomposition; the capture `([\s\S]+?)` before a backtick is the shortest
non-empty segment ending at a backtick after the anchored literal. -/

/-- Everything after the first occurrence of `pat` in `s`, or none. -/
def afterFirst (s pat : String) : Option String :=
  match splitOnStr s pat with
  | [] => none
  | [_] => none
  | _ :: rest => some (intercalateStr pat rest)

/-- The lazy non-empty capture `([\s\S]+?)` followed by `post`: the shortest
non-empty prefix of `rest` that ends immediately before an occurrence of
`post`. -/
def lazyCapturePlus (rest post : String) : Option String :=
  let parts := splitOnStr rest post
  match parts with
  | [] => none
  | [_] => none
  | c0 :: c1 :: tail =>
    if c0 ≠ "" then some c0
    else if tail ≠ [] then some (post ++ c1)
    else none

/-- Pattern `Could not parse LLM output: ([\s\S]+?)` delimited by backticks. -/
def parsePattern1 (msg : String) : Option String :=
  (afterFirst msg "Could not parse LLM output: \x60").bind
    (fun r => lazyCapturePlus r "\x60")

/-- Pattern `Stream error: "Could not parse LLM output: ...` variant. -/
def parsePattern2 (msg : String) : Option String :=
  (afterFirst msg "Stream error: \"Could not parse LLM output: \x60").bind
    (fun r => lazyCapturePlus r "\x60")

/-- Pattern `OUTPUT_PARSING_FAILURE[\s\S]*?` followed by a backtick-delimited
capture. -/
def parsePattern3 (msg : String) : Option String :=
  (afterFirst msg "OUTPUT_PARSING_FAILURE").bind
    (fun r => (afterFirst r "\x60").bind (fun r2 => lazyCapturePlus r2 "\x60"))

/-- The recovery loop over the three patterns, first match wins. -/
def extractContent (msg : String) : Option String :=
  (parsePattern1 msg).orElse
    (fun _ => (parsePattern2 msg).orElse (fun _ => parsePattern3 msg))

/-- The lazy possibly-empty capture `([\s\S]*?)` before `post`. -/
def lazyCaptureStar (rest post : String) : Option String :=
  match splitOnStr rest post with
  | [] => none
  | [_] => none
  | c0 :: _ :: _ => some c0

/-- First match of a `pre ... post` tag pair: (captured text, text with the
whole match removed).  `re.sub` removes every match; the embedding removes the
first, which coincides for content with a single marker pair (the case the
code is written for). -/
def tagExtract (s pre post : String) : Option (String × String) :=
  match splitOnStr s pre with
  | [] => none
  | [_] => none
  | before :: rest =>
    let afterPre := intercalateStr pre rest
    match lazyCaptureStar afterPre post with
    | none => none
    | some cap =>
      let remainder := intercalateStr post ((splitOnStr afterPre post).drop 1)
      some (cap, before ++ remainder)

/-- Character index of the first occurrence of `pat` in `s`, or none. -/
def subIndex (s pat : String) : Option Nat :=
  match splitOnStr s pat with
  | [] => none
  | [_] => none
  | before :: _ :: _ => some before.data.length

/-- The `Thought:([\s\S]*?)(?=Action:|Final Answer:|$)` pattern (embedded
case-sensitively): capture from after the first `Thought:` up to the nearest
of `Action:`, `Final Answer:`, or the end; the lookahead is not consumed. -/
def thoughtExtract (s : String) : Option (String × String) :=
  match splitOnStr s "Thought:" with
  | [] => none
  | [_] => none
  | before :: rest =>
    let afterPre := intercalateStr "Thought:" rest
    let stopA := (subIndex afterPre "Action:").getD afterPre.data.length
    let stopF := (subIndex afterPre "Final Answer:").getD afterPre.data.length
    let stop := min stopA stopF
    some (⟨afterPre.data.take stop⟩, before ++ ⟨afterPre.data.drop stop⟩)

/-- The thinking/response split applied to recovered content: try the
`<think>`, `<thinking>`, `Thought:` patterns in order; on the first match the
capture (stripped) is the thinking and the text with the match removed
(stripped) is the response; with no match the whole content is the response. -/
def thinkSplit (c : String) : String × String :=
  match tagExtract c "<think>" "</think>" with
  | some (cap, rem) => (trimStr cap, trimStr rem)
  | none =>
    match tagExtract c "<thinking>" "</thinking>" with
    | some (cap, rem) => (trimStr cap, trimStr rem)
    | none =>
      match thoughtExtract c with
      | some (cap, rem) => (trimStr cap, trimStr rem)
      | none => ("", c)

/-- The memory side effect of `RunnableWithMessageHistory` on a successful
`invoke`: the history for the configured session receives the input message
and the output message (`input_messages_key="input"`, output taken from the
executor's `output` key).  No stats are touched by the wrapper. -/
def historyWrapperAppend (st : AgentState) (sid : String)
    (userText aiText : String) : AgentState :=
  { (getSessionHistoryState st sid).1 with
    sessionHistories :=
      histSet (getSessionHistoryState st sid).1.sessionHistories sid
        ((getSessionHistoryState st sid).2
          ++ [⟨Role.human, userText⟩, ⟨Role.ai, aiText⟩]) }

/-- `Agent.process_input`.  The turn is parameterized by the executor outcome.
On a clean return, `RunnableWithMessageHistory` has already appended the
exchange `(input, output)` to the session history (its documented behavior
with `input_messages_key="input"` and the executor's `output` key), and
`save_context_with_stats` appends the same exchange a second time — before
the iteration-cap rewrite, so memory always receives the raw output.  On a
raised exception the wrapper appends nothing; the except branch either
recovers content (and only then touches memory, via the default session) or
returns an error dict without touching memory.  `process_input` itself never
raises: its except clause catches every exception and returns a dict. -/
def processInput (st : AgentState) (osid : Option String)
    (userInput : String) (exec : ExecOutcome) : AgentState × TurnRes :=
  match exec with
  | .clean out steps =>
    let sid := resolveSid st osid
    -- RunnableWithMessageHistory appends the exchange on successful invoke
    let st2 := historyWrapperAppend st sid userInput out
    -- the explicit stats-saving step appends the same exchange again
    let st3 := saveContextWithStats st2 (some sid) userInput out
    let output := rewriteOnCap out steps
    let thinking := extractThinking steps
    let rsteps := steps.map (fun s => ⟨s.log, s.tool, s.toolInput, s.observation⟩)
    let fcalls := extractFunctionCalls steps
    (st3,
      { response := output
        toolCalls := rsteps
        reasoning := thinking
        functionCallsOpt := some fcalls })
  | .raiseErr msg =>
    match extractContent msg with
    | some c =>
      let thinking := (thinkSplit c).1
      let resp1 := trimStr (thinkSplit c).2
      let resp :=
        if resp1 = "" then
          "I encountered a parsing error but was able to extract some content. Please try rephrasing your question."
        else resp1
      -- save_context_with_stats is called without a session_id here,
      -- so the recovered exchange lands in the current (default) session
      let st1 := saveContextWithStats st none userInput resp
      (st1,
        { response := resp
          toolCalls := []
          reasoning :=
            if thinking ≠ "" then thinking
            else "I\x27ve gathered information to answer your question."
          functionCallsOpt := some [] })
    | none =>
      (st,
        { response := "Error processing request: " ++ msg
          toolCalls := []
          reasoning := "Error occurred while processing: " ++ userInput
          functionCallsOpt := none })

/-! ## Event Stream Multiplexer (`StreamingHandler`, streaming_handler.py)

The handler is a state machine fed by langchain lifecycle callbacks; each
callback pushes zero or more typed events onto the per-request queue.  The
queue preserves emission order, so the emitted event sequence is the
concatenation of the events produced by each callback in callback order. -/

/-- `self.current_section`: "thinking", "tool" or "response". -/
inductive HSection where
  | thinking
  | tool
  | response
deriving DecidableEq

/-- A function-call record built by `on_tool_start`.  The JSON/brace parameter
parsing of the raw input string is elided (no claim depends on it); the raw
input string is kept. -/
structure HFunctionCall where
  tool : String
  rawInput : String
deriving DecidableEq

/-- The typed events placed on the queue. -/
inductive SEvent where
  | thinking (content : String)
  | token (content : String)
  | toolSeparator (content : String)
  | structuredUpdate (thinking : String) (functionCalls : List HFunctionCall)
      (response : String)
  | structuredOutput (thinking : String) (functionCalls : List HFunctionCall)
      (response : String) (conversationSummary : String)
      (conversationHistory : String)
  | errorEv (content : String)
deriving DecidableEq

/-- Event kinds, for stating ordering properties. -/
inductive EventKind where
  | thinkingK
  | tokenK
  | toolSeparatorK
  | structuredUpdateK
  | structuredOutputK
  | errorK
deriving DecidableEq

/-- The kind of an event. -/
def SEvent.kind : SEvent → EventKind
  | .thinking _ => .thinkingK
  | .token _ => .tokenK
  | .toolSeparator _ => .toolSeparatorK
  | .structuredUpdate _ _ _ => .structuredUpdateK
  | .structuredOutput _ _ _ _ _ => .structuredOutputK
  | .errorEv _ => .errorK

/-- `StreamingHandler._escape_special_chars`. -/
def escapeSpecialChars (s : String) : String :=
  replaceStr (replaceStr (replaceStr (replaceStr (replaceStr s
    "\\" "\\\\") "\"" "\\\"") "\n" "\\n") "\r" "\\r") "\t" "\\t"

/-- The handler's mutable state. -/
structure HandlerState where
  sect : HSection
  thinkingBuffer : String
  responseBuffer : String
  functionCalls : List HFunctionCall
deriving DecidableEq

/-- `StreamingHandler.__init__`. -/
def initHandler : HandlerState :=
  { sect := .thinking
    thinkingBuffer := ""
    responseBuffer := ""
    functionCalls := [] }

/-- `StreamingHandler.on_llm_new_token`: per-chunk marker detection (the
start-marker branch is checked first and shadows the end-marker branch when a
chunk carries both markers), then section-dependent emission.  Tokens that are
empty after marker stripping, and tokens arriving while the section is
"tool", produce no event. -/
def onLlmNewToken (h : HandlerState) (tok : String) : HandlerState × List SEvent :=
  let step1 : HandlerState × String × List SEvent :=
    if containsStr tok "<think>" || containsStr tok "</think>" then
      if containsStr tok "<think>" then
        ({ h with sect := .thinking }, replaceStr tok "<think>" "", [])
      else
        let h1 := { h with sect := .response }
        let parts := splitOnStr tok "</think>"
        if parts.length > 1 then
          let pre := parts.headD ""
          if pre ≠ "" then
            ({ h1 with thinkingBuffer := h1.thinkingBuffer ++ pre },
              parts.getD 1 "",
              [SEvent.thinking (escapeSpecialChars pre)])
          else (h1, parts.getD 1 "", [])
        else (h1, "", [])
    else (h, tok, [])
  let h1 := step1.1
  let tok1 := step1.2.1
  let evs := step1.2.2
  if h1.sect = .thinking ∧ tok1 ≠ "" then
    ({ h1 with thinkingBuffer := h1.thinkingBuffer ++ tok1 },
      evs ++ [SEvent.thinking (escapeSpecialChars tok1)])
  else if h1.sect = .response ∧ tok1 ≠ "" then
    let h2 := { h1 with responseBuffer := h1.responseBuffer ++ tok1 }
    (h2,
      evs ++ [SEvent.token (escapeSpecialChars tok1),
        SEvent.structuredUpdate (trimStr h2.thinkingBuffer) h2.functionCalls
          (trimStr h2.responseBuffer)])
  else (h1, evs)

/-- `StreamingHandler.on_tool_start`: switch to the tool section, record the
function call, emit the opening separator. -/
def onToolStart (h : HandlerState) (toolName inputStr : String) :
    HandlerState × List SEvent :=
  ({ h with
      sect := .tool
      functionCalls := h.functionCalls ++ [⟨toolName, inputStr⟩] },
    [SEvent.toolSeparator ("\n---Using " ++ toolName ++ "---\n")])

/-- `StreamingHandler.on_tool_end`: revert to thinking, emit the closing
separator. -/
def onToolEnd (h : HandlerState) : HandlerState × List SEvent :=
  ({ h with sect := .thinking },
    [SEvent.toolSeparator "\n---Tool Complete---\n"])

/-- `StreamingHandler.on_chain_end`: switch to response, overwrite the
response buffer with the chain's output when present, and emit exactly one
structured_output event.  The conversation summary/history are read from the
agent (external to the handler), so they arrive as parameters. -/
def onChainEnd (h : HandlerState) (output : Option String)
    (convSummary convHistory : String) : HandlerState × List SEvent :=
  let h1 := { h with sect := .response }
  let h2 :=
    match output with
    | some out => { h1 with responseBuffer := out }
    | none => h1
  (h2,
    [SEvent.structuredOutput (trimStr h2.thinkingBuffer) h2.functionCalls
      (trimStr h2.responseBuffer) convSummary convHistory])

/-- `StreamingHandler.on_llm_start`. -/
def onLlmStart (h : HandlerState) : HandlerState × List SEvent :=
  ({ h with sect := .thinking }, [])

/-- The lifecycle callbacks the reasoning process drives the handler with. -/
inductive CallbackEvent where
  | llmStart
  | llmToken (tok : String)
  | toolStart (toolName inputStr : String)
  | toolEnd
  | chainEnd (output : Option String) (convSummary convHistory : String)
deriving DecidableEq

/-- Dispatch one callback. -/
def handlerStep (h : HandlerState) : CallbackEvent → HandlerState × List SEvent
  | .llmStart => onLlmStart h
  | .llmToken tok => onLlmNewToken h tok
  | .toolStart n i => onToolStart h n i
  | .toolEnd => onToolEnd h
  | .chainEnd out cs ch => onChainEnd h out cs ch

/-- Run the handler over a callback trace, collecting the emitted events in
emission order (the FIFO queue preserves it). -/
def runHandler (h : HandlerState) : List CallbackEvent → HandlerState × List SEvent
  | [] => (h, [])
  | e :: es =>
    let r1 := handlerStep h e
    let r2 := runHandler r1.1 es
    (r2.1, r1.2 ++ r2.2)

/-- The event sequence a client observes for a callback trace. -/
def emittedEvents (es : List CallbackEvent) : List SEvent :=
  (runHandler initHandler es).2

/-- A token chunk free of both reasoning markers. -/
def markerFree (t : String) : Prop :=
  containsStr t "<think>" = false ∧ containsStr t "</think>" = false

instance (t : String) : Decidable (markerFree t) := by
  unfold markerFree; infer_instance

/-! ## Streaming path memory update (`Workflow.stream`, workflow.py)

`Workflow.stream` (and likewise `astream` / `astream_tokens`) ends with
`self.agent.memory.save_context({"input": user_input}, {"output":
"[Streaming response completed]"})`.  The `Agent` class assigns no `memory`
attribute (see `agentAttrNames`), so this attribute access raises
`AttributeError`; unlike the `load_memory_variables` read at the start of
`stream` (whose failure is caught and replaced by the bare
"Current Question:" prompt), the save is not wrapped in a try/except. -/

/-- The attributes `Agent.__init__` assigns on `self` (agent.py); no method of
`Agent` assigns any further attribute. -/
def agentAttrNames : List String :=
  ["llm", "buffer_size", "summarization_threshold", "memory_stats",
    "session_histories", "current_session_id", "tools", "prompt", "agent",
    "agent_executor", "agent_with_history"]

/-- Python attribute access `agent.memory...`: succeeds only when the Agent
object carries the attribute. -/
def agentGetAttr (st : AgentState) (name : String) : Except String AgentState :=
  if agentAttrNames.contains name then Except.ok st
  else Except.error ("AttributeError: \x27Agent\x27 object has no attribute \x27" ++ name ++ "\x27")

/-- The enhanced-input construction at the top of `Workflow.stream`: the
`self.agent.memory.load_memory_variables({})` read raises AttributeError,
the except clause prints and falls back to the bare prompt. -/
def streamEnhancedInput (st : AgentState) (userInput : String) : String :=
  match agentGetAttr st "memory" with
  | Except.ok _ => "Current Question: " ++ userInput  -- unreachable
  | Except.error _ => "Current Question: " ++ userInput

/-- The post-stream memory update of `Workflow.stream`: resolve the `memory`
attribute, then save the exchange with the placeholder output string.  The
successful branch is unreachable for the Agent as written; it is kept to show
what the statement would store (the placeholder, not the final response). -/
def streamSaveContext (st : AgentState) (userInput : String) :
    Except String AgentState :=
  match agentGetAttr st "memory" with
  | Except.ok st1 =>
      Except.ok (saveContextWithStats st1 none userInput "[Streaming response completed]")
  | Except.error e => Except.error e

/-- A run of successful turns with empty step lists against the default
session of one agent, as exercised by repeated `process_input` calls. -/
def runCleanTurns (st : AgentState) (l : List (String × String)) : AgentState :=
  l.foldl (fun s p => (processInput s none p.1 (ExecOutcome.clean p.2 [])).1) st

/-- The Scenario-A executor trace: the model chose the weather tool (under its
registered name "weather") for city Tokyo, and the stub tool returned the
structured result; the executor then hit the iteration cap. -/
def tokyoWeatherStep : AgentStep :=
  { tool := "weather"
    toolInput := "Tokyo"
    observation := Obs.dict [("temperature", "22°C"), ("weather", "clear")]
    log := "Thought: I should check the current weather in Tokyo.\nAction: weather\nAction Input: Tokyo" }

/-- The same step as it would look if the tool had been registered under the
CamelCase name the `process_input` filters expect. -/
def tokyoWeatherStepCamel : AgentStep :=
  { tokyoWeatherStep with tool := "WeatherTool" }

/-- The callback trace of a streamed turn that invokes exactly one tool:
reasoning start, thinking tokens, tool start, tool-phase tokens, tool end,
further thinking tokens, the reasoning end marker, answer tokens, chain end. -/
def singleToolTrace (ts1 ts2 ts3 ans : List String)
    (toolName inputStr out cs ch : String) : List CallbackEvent :=
  [CallbackEvent.llmStart]
    ++ ts1.map CallbackEvent.llmToken
    ++ [CallbackEvent.toolStart toolName inputStr]
    ++ ts2.map CallbackEvent.llmToken
    ++ [CallbackEvent.toolEnd]
    ++ ts3.map CallbackEvent.llmToken
    ++ [CallbackEvent.llmToken "</think>"]
    ++ ans.map CallbackEvent.llmToken
    ++ [CallbackEvent.chainEnd (some out) cs ch]

/-! # Theorems -/

/-! ## Helper lemmas -/

theorem histLookup_histSet_self (hs : List (String × List Msg)) (sid : String)
    (msgs : List Msg) : histLookup (histSet hs sid msgs) sid = some msgs := by
  induction hs with
  | nil => simp [histSet, histLookup]
  | cons p rest ih =>
    by_cases hk : p.1 = sid
    · simp [histSet, histLookup, hk]
    · simp [histSet, histLookup, hk, ih]

theorem histSet_histSet_self (hs : List (String × List Msg)) (sid : String)
    (m1 m2 : List Msg) : histSet (histSet hs sid m1) sid m2 = histSet hs sid m2 := by
  induction hs with
  | nil => simp [histSet]
  | cons p rest ih =>
    by_cases hk : p.1 = sid
    · simp [histSet, hk]
    · simp [histSet, hk, ih]

theorem histLookup_isSome_of_set (hs : List (String × List Msg)) (sid : String)
    (msgs : List Msg) : (histLookup (histSet hs sid msgs) sid).isSome := by
  rw [histLookup_histSet_self]; rfl

theorem getSessionHistoryState_snd (st : AgentState) (sid : String) :
    (getSessionHistoryState st sid).2 = histMsgs st sid := by
  unfold getSessionHistoryState histMsgs
  cases h : histLookup st.sessionHistories sid <;> simp [h]

theorem getSessionHistoryState_threshold (st : AgentState) (sid : String) :
    (getSessionHistoryState st sid).1.summarizationThreshold
      = st.summarizationThreshold := by
  unfold getSessionHistoryState
  cases h : histLookup st.sessionHistories sid <;> simp [h]

theorem getSessionHistoryState_stats (st : AgentState) (sid : String) :
    (getSessionHistoryState st sid).1.memoryStats = st.memoryStats := by
  unfold getSessionHistoryState
  cases h : histLookup st.sessionHistories sid <;> simp [h]

theorem getSessionHistoryState_buffer (st : AgentState) (sid : String) :
    (getSessionHistoryState st sid).1.bufferSize = st.bufferSize := by
  unfold getSessionHistoryState
  cases h : histLookup st.sessionHistories sid <;> simp [h]

theorem getSessionHistoryState_current (st : AgentState) (sid : String) :
    (getSessionHistoryState st sid).1.currentSessionId = st.currentSessionId := by
  unfold getSessionHistoryState
  cases h : histLookup st.sessionHistories sid <;> simp [h]

theorem bumpStats_total (stats : MemStats) (n : Nat) (th : Int) :
    (bumpStats stats n th).totalMessages = stats.totalMessages + 2 := by
  unfold bumpStats; split <;> rfl

theorem bumpStats_summCount_pos (stats : MemStats) (n : Nat) (th : Int)
    (h : (n : Int) > th * 2) :
    (bumpStats stats n th).summarizationsCount
      = stats.summarizationsCount + 1 := by
  rw [bumpStats, if_pos h]

theorem saveContextWithStats_histMsgs (st : AgentState) (osid : Option String)
    (u a : String) :
    histMsgs (saveContextWithStats st osid u a) (resolveSid st osid) =
      histMsgs st (resolveSid st osid) ++ [⟨Role.human, u⟩, ⟨Role.ai, a⟩] := by
  simp [saveContextWithStats, histMsgs, histLookup_histSet_self,
    getSessionHistoryState_snd]

theorem saveContextWithStats_total (st : AgentState) (osid : Option String)
    (u a : String) :
    (saveContextWithStats st osid u a).memoryStats.totalMessages
      = st.memoryStats.totalMessages + 2 := by
  simp [saveContextWithStats, bumpStats_total, getSessionHistoryState_stats]

theorem saveContextWithStats_threshold (st : AgentState) (osid : Option String)
    (u a : String) :
    (saveContextWithStats st osid u a).summarizationThreshold
      = st.summarizationThreshold := by
  simp [saveContextWithStats, getSessionHistoryState_threshold]

theorem saveContextWithStats_buffer (st : AgentState) (osid : Option String)
    (u a : String) :
    (saveContextWithStats st osid u a).bufferSize = st.bufferSize := by
  simp [saveContextWithStats, getSessionHistoryState_buffer]

theorem saveContextWithStats_current (st : AgentState) (osid : Option String)
    (u a : String) :
    (saveContextWithStats st osid u a).currentSessionId = st.currentSessionId := by
  simp [saveContextWithStats, getSessionHistoryState_current]

theorem saveContextWithStats_summCount_of_trigger (st : AgentState)
    (osid : Option String) (u a : String)
    (h : (((histMsgs st (resolveSid st osid)).length + 2 : Int))
      > st.summarizationThreshold * 2) :
    (saveContextWithStats st osid u a).memoryStats.summarizationsCount
      = st.memoryStats.summarizationsCount + 1 := by
  simp only [saveContextWithStats]
  rw [bumpStats_summCount_pos, getSessionHistoryState_stats]
  rw [getSessionHistoryState_snd, getSessionHistoryState_threshold]
  simpa using h

theorem append3_ne_empty (a b c : String) (ha : a.length ≠ 0) :
    a ++ b ++ c ≠ "" := by
  intro h
  have h2 := congrArg String.length h
  rw [String.length_append, String.length_append] at h2
  have h0 : ("" : String).length = 0 := rfl
  rw [h0] at h2
  omega

theorem read_summary_nonempty (st : AgentState) (sid : String)
    (h : ((histMsgs st sid).length : Int) > st.summarizationThreshold) :
    (getConversationSummary st (some sid)).2.summary ≠ "" := by
  unfold getConversationSummary
  rw [resolveSid]
  simp only [Option.getD_some]
  rw [if_pos]
  · exact append3_ne_empty _ _ _ (by decide)
  · rw [getSessionHistoryState_snd, getSessionHistoryState_threshold]
    exact h

theorem read_of_empty (st : AgentState) (sid : String)
    (hth : 0 ≤ st.summarizationThreshold) (hm : histMsgs st sid = []) :
    (getConversationSummary st (some sid)).2.summary = "" ∧
    (getConversationSummary st (some sid)).2.recentMessages = [] := by
  unfold getConversationSummary
  rw [resolveSid]
  simp only [Option.getD_some]
  rw [getSessionHistoryState_snd, getSessionHistoryState_threshold, hm]
  rw [if_neg]
  · exact ⟨rfl, rfl⟩
  · simp
    omega

theorem clearMemory_histMsgs (st : AgentState) (osid : Option String) :
    histMsgs (clearMemory st osid) (resolveSid st osid) = [] := by
  unfold clearMemory histMsgs
  cases hl : histLookup st.sessionHistories (resolveSid st osid) <;>
    simp [hl, histLookup_histSet_self]

theorem clearMemory_current (st : AgentState) (osid : Option String) :
    (clearMemory st osid).currentSessionId = st.currentSessionId := rfl

theorem clearMemory_resolveSid (st : AgentState) (osid : Option String) :
    resolveSid (clearMemory st osid) osid = resolveSid st osid := rfl

theorem clearMemory_idem (st : AgentState) (osid : Option String) :
    clearMemory (clearMemory st osid) osid = clearMemory st osid := by
  cases hl : histLookup st.sessionHistories (resolveSid st osid) with
  | none =>
    simp only [clearMemory, resolveSid] at hl ⊢
    simp [hl]
  | some m =>
    simp only [clearMemory, resolveSid] at hl ⊢
    simp [hl, histLookup_histSet_self, histSet_histSet_self]

/-- C1 counterexample: with `summarization_threshold = 1`, the second append
triggers "summarization" (summarizations_count becomes 1 and the read-path
summary is non-empty), yet the session's message log holds 4 messages, not at
most 2 — nothing is ever evicted. -/
theorem c1_counterexample :
    (saveContextWithStats (saveContextWithStats (initAgent 8 1) none "u1" "a1")
        none "u2" "a2").memoryStats.summarizationsCount = 1 ∧
    (getConversationSummary
        (saveContextWithStats (saveContextWithStats (initAgent 8 1) none "u1" "a1")
          none "u2" "a2") (some "default_session")).2.summary ≠ "" ∧
    (histMsgs
        (saveContextWithStats (saveContextWithStats (initAgent 8 1) none "u1" "a1")
          none "u2" "a2") "default_session").length = 4 ∧
    ¬ (histMsgs
        (saveContextWithStats (saveContextWithStats (initAgent 8 1) none "u1" "a1")
          none "u2" "a2") "default_session").length ≤ 2 := by
  decide

/-- C1 (amended): after an append that triggers summarization (log length
exceeding `summarization_threshold * 2`), summarizations_count increments and
the summary returned by the read path is a non-empty exchange-count
placeholder, but the message log is NOT truncated: it is the old log plus the
appended exchange (so its length exceeds 2), and no content is evicted. -/
theorem c1_summarization_trigger_no_truncation (st : AgentState)
    (osid : Option String) (u a : String)
    (hth : 1 ≤ st.summarizationThreshold)
    (htrig : (((histMsgs st (resolveSid st osid)).length + 2 : Int))
      > st.summarizationThreshold * 2) :
    (saveContextWithStats st osid u a).memoryStats.summarizationsCount
        = st.memoryStats.summarizationsCount + 1 ∧
    histMsgs (saveContextWithStats st osid u a) (resolveSid st osid)
        = histMsgs st (resolveSid st osid) ++ [⟨Role.human, u⟩, ⟨Role.ai, a⟩] ∧
    2 < (histMsgs (saveContextWithStats st osid u a) (resolveSid st osid)).length ∧
    (getConversationSummary (saveContextWithStats st osid u a)
        (some (resolveSid st osid))).2.summary ≠ "" := by
  refine ⟨saveContextWithStats_summCount_of_trigger st osid u a htrig,
    saveContextWithStats_histMsgs st osid u a, ?_, ?_⟩
  · rw [saveContextWithStats_histMsgs]
    simp only [List.length_append, List.length_cons, List.length_nil]
    omega
  · apply read_summary_nonempty
    rw [saveContextWithStats_histMsgs, saveContextWithStats_threshold]
    simp only [List.length_append, List.length_cons, List.length_nil]
    push_cast
    omega

/-- C1 witness: instantiation of the amended theorem at a concrete session
with threshold 1 and one prior exchange. -/
theorem c1_summarization_trigger_witness :
    1 ≤ (saveContextWithStats (initAgent 8 1) none "u1" "a1").summarizationThreshold ∧
    ((((histMsgs (saveContextWithStats (initAgent 8 1) none "u1" "a1")
        (resolveSid (saveContextWithStats (initAgent 8 1) none "u1" "a1") none)).length
        + 2 : Int))
      > (saveContextWithStats (initAgent 8 1) none "u1" "a1").summarizationThreshold * 2) ∧
    ((saveContextWithStats (saveContextWithStats (initAgent 8 1) none "u1" "a1")
        none "u2" "a2").memoryStats.summarizationsCount
      = (saveContextWithStats (initAgent 8 1) none "u1" "a1").memoryStats.summarizationsCount
          + 1 ∧
      histMsgs (saveContextWithStats (saveContextWithStats (initAgent 8 1) none "u1" "a1")
          none "u2" "a2")
          (resolveSid (saveContextWithStats (initAgent 8 1) none "u1" "a1") none)
        = histMsgs (saveContextWithStats (initAgent 8 1) none "u1" "a1")
            (resolveSid (saveContextWithStats (initAgent 8 1) none "u1" "a1") none)
          ++ [⟨Role.human, "u2"⟩, ⟨Role.ai, "a2"⟩] ∧
      2 < (histMsgs (saveContextWithStats
            (saveContextWithStats (initAgent 8 1) none "u1" "a1") none "u2" "a2")
            (resolveSid (saveContextWithStats (initAgent 8 1) none "u1" "a1") none)).length ∧
      (getConversationSummary (saveContextWithStats
          (saveContextWithStats (initAgent 8 1) none "u1" "a1") none "u2" "a2")
          (some (resolveSid (saveContextWithStats (initAgent 8 1) none "u1" "a1")
            none))).2.summary ≠ "") :=
  ⟨by decide, by decide,
    c1_summarization_trigger_no_truncation
      (saveContextWithStats (initAgent 8 1) none "u1" "a1") none "u2" "a2"
      (by decide) (by decide)⟩

/-- C3 counterexample: `set_max_token_limit(-1)` raises nothing and mutates
the store — the threshold (and its stats copy) becomes -1, so the state is
changed, contradicting "raises ConfigurationError and leaves the store state
unchanged". -/
theorem c3_counterexample :
    (setMaxTokenLimit (initAgent 8 6) (-1)).summarizationThreshold = -1 ∧
    (setMaxTokenLimit (initAgent 8 6) (-1)).memoryStats.summarizationThreshold = -1 ∧
    setMaxTokenLimit (initAgent 8 6) (-1) ≠ initAgent 8 6 := by
  decide

/-- C3 (amended): the threshold administration operation performs no
validation at all: for every integer `n` (including non-positive ones) it
returns normally, setting `summarization_threshold` and its stats copy to
`n`, leaving the message logs and counters untouched; no ConfigurationError
exists in the code. -/
theorem c3_threshold_no_validation (st : AgentState) (n : Int) :
    (setMaxTokenLimit st n).summarizationThreshold = n ∧
    (setMaxTokenLimit st n).memoryStats.summarizationThreshold = n ∧
    (setMaxTokenLimit st n).sessionHistories = st.sessionHistories ∧
    (setMaxTokenLimit st n).memoryStats.totalMessages
      = st.memoryStats.totalMessages ∧
    (setMaxTokenLimit st n).memoryStats.summarizationsCount
      = st.memoryStats.summarizationsCount :=
  ⟨rfl, rfl, rfl, rfl, rfl⟩

/-- C9: `clear` followed by `read` yields an empty log and an empty summary
(for any configured non-negative threshold and any prior state); `clear` is
idempotent; and `clear` resets the stats counters while retaining the
configured buffer_size and summarization_threshold. -/
theorem c9_clear_idempotent_empty_read (st : AgentState) (osid : Option String)
    (hth : 0 ≤ st.summarizationThreshold) :
    (getConversationSummary (clearMemory st osid)
        (some (resolveSid st osid))).2.summary = "" ∧
    (getConversationSummary (clearMemory st osid)
        (some (resolveSid st osid))).2.recentMessages = [] ∧
    clearMemory (clearMemory st osid) osid = clearMemory st osid ∧
    (clearMemory st osid).memoryStats
      = initStats st.bufferSize st.summarizationThreshold ∧
    (clearMemory st osid).bufferSize = st.bufferSize ∧
    (clearMemory st osid).summarizationThreshold = st.summarizationThreshold := by
  have hread := read_of_empty (clearMemory st osid) (resolveSid st osid)
    (by exact hth) (clearMemory_histMsgs st osid)
  exact ⟨hread.1, hread.2, clearMemory_idem st osid, rfl, rfl, rfl⟩

/-- C9 witness: instantiation at a concrete non-empty prior state. -/
theorem c9_clear_witness :
    0 ≤ (saveContextWithStats (initAgent 8 6) none "u" "a").summarizationThreshold ∧
    ((getConversationSummary
        (clearMemory (saveContextWithStats (initAgent 8 6) none "u" "a") none)
        (some (resolveSid (saveContextWithStats (initAgent 8 6) none "u" "a")
          none))).2.summary = "" ∧
      (getConversationSummary
        (clearMemory (saveContextWithStats (initAgent 8 6) none "u" "a") none)
        (some (resolveSid (saveContextWithStats (initAgent 8 6) none "u" "a")
          none))).2.recentMessages = [] ∧
      clearMemory (clearMemory (saveContextWithStats (initAgent 8 6) none "u" "a") none)
          none
        = clearMemory (saveContextWithStats (initAgent 8 6) none "u" "a") none ∧
      (clearMemory (saveContextWithStats (initAgent 8 6) none "u" "a") none).memoryStats
        = initStats (saveContextWithStats (initAgent 8 6) none "u" "a").bufferSize
            (saveContextWithStats (initAgent 8 6) none "u" "a").summarizationThreshold ∧
      (clearMemory (saveContextWithStats (initAgent 8 6) none "u" "a") none).bufferSize
        = (saveContextWithStats (initAgent 8 6) none "u" "a").bufferSize ∧
      (clearMemory (saveContextWithStats (initAgent 8 6) none "u" "a")
          none).summarizationThreshold
        = (saveContextWithStats (initAgent 8 6) none "u" "a").summarizationThreshold) :=
  ⟨by decide,
    c9_clear_idempotent_empty_read (saveContextWithStats (initAgent 8 6) none "u" "a")
      none (by decide)⟩

theorem resolveSid_some (st : AgentState) (sid : String) :
    resolveSid st (some sid) = sid := rfl

theorem resolveSid_none (st : AgentState) :
    resolveSid st none = st.currentSessionId := rfl

theorem historyWrapperAppend_histMsgs (st : AgentState) (sid : String)
    (u a : String) :
    histMsgs (historyWrapperAppend st sid u a) sid =
      histMsgs st sid ++ [⟨Role.human, u⟩, ⟨Role.ai, a⟩] := by
  simp [historyWrapperAppend, histMsgs, histLookup_histSet_self,
    getSessionHistoryState_snd]

theorem historyWrapperAppend_stats (st : AgentState) (sid : String)
    (u a : String) :
    (historyWrapperAppend st sid u a).memoryStats = st.memoryStats := by
  simp [historyWrapperAppend, getSessionHistoryState_stats]

theorem historyWrapperAppend_current (st : AgentState) (sid : String)
    (u a : String) :
    (historyWrapperAppend st sid u a).currentSessionId = st.currentSessionId := by
  simp [historyWrapperAppend, getSessionHistoryState_current]

theorem processInput_clean_fst (st : AgentState) (osid : Option String)
    (u out : String) (steps : List AgentStep) :
    (processInput st osid u (ExecOutcome.clean out steps)).1 =
      saveContextWithStats
        (historyWrapperAppend st (resolveSid st osid) u out)
        (some (resolveSid st osid)) u out := rfl

theorem processInput_clean_histMsgs (st : AgentState) (osid : Option String)
    (u out : String) (steps : List AgentStep) :
    histMsgs (processInput st osid u (ExecOutcome.clean out steps)).1
        (resolveSid st osid) =
      histMsgs st (resolveSid st osid)
        ++ [⟨Role.human, u⟩, ⟨Role.ai, out⟩, ⟨Role.human, u⟩, ⟨Role.ai, out⟩] := by
  rw [processInput_clean_fst]
  have h := saveContextWithStats_histMsgs
    (historyWrapperAppend st (resolveSid st osid) u out)
    (some (resolveSid st osid)) u out
  rw [resolveSid_some] at h
  rw [h, historyWrapperAppend_histMsgs, List.append_assoc]
  rfl

theorem processInput_clean_total (st : AgentState) (osid : Option String)
    (u out : String) (steps : List AgentStep) :
    (processInput st osid u (ExecOutcome.clean out steps)).1.memoryStats.totalMessages
      = st.memoryStats.totalMessages + 2 := by
  rw [processInput_clean_fst, saveContextWithStats_total,
    historyWrapperAppend_stats]

theorem processInput_clean_current (st : AgentState) (osid : Option String)
    (u out : String) (steps : List AgentStep) :
    (processInput st osid u (ExecOutcome.clean out steps)).1.currentSessionId
      = st.currentSessionId := by
  rw [processInput_clean_fst, saveContextWithStats_current,
    historyWrapperAppend_current]

theorem runCleanTurns_spec (l : List (String × String)) (st : AgentState) :
    (runCleanTurns st l).currentSessionId = st.currentSessionId ∧
    (histMsgs (runCleanTurns st l) st.currentSessionId).length
      = (histMsgs st st.currentSessionId).length + 4 * l.length ∧
    (runCleanTurns st l).memoryStats.totalMessages
      = st.memoryStats.totalMessages + 2 * l.length := by
  induction l generalizing st with
  | nil => simp [runCleanTurns]
  | cons p ps ih =>
    have hrun : runCleanTurns st (p :: ps)
        = runCleanTurns (processInput st none p.1 (ExecOutcome.clean p.2 [])).1 ps := by
      simp [runCleanTurns]
    have hcur := processInput_clean_current st none p.1 p.2 []
    have hlen := processInput_clean_histMsgs st none p.1 p.2 []
    rw [resolveSid_none] at hlen
    have htot := processInput_clean_total st none p.1 p.2 []
    obtain ⟨ihc, ihl, iht⟩ := ih (processInput st none p.1 (ExecOutcome.clean p.2 [])).1
    rw [hrun]
    refine ⟨by rw [ihc, hcur], ?_, ?_⟩
    · rw [hcur] at ihl
      rw [ihl, hlen]
      simp only [List.length_append, List.length_cons, List.length_nil]
      omega
    · rw [iht, htot]
      simp only [List.length_cons]
      ring

/-- C10: on every successful turn the exchange is appended twice — once by the
history-wrapping runnable and once by the explicit stats-saving step — so the
session log grows by 4 messages per turn while total_messages grows by 2; on a
fresh agent the log length is 4N against a total_messages of 2N after N ≥ 1
turns, so the two never agree. -/
theorem c10_double_append_per_turn :
    (∀ (st : AgentState) (osid : Option String) (u out : String)
        (steps : List AgentStep),
      (histMsgs (processInput st osid u (ExecOutcome.clean out steps)).1
          (resolveSid st osid)).length
        = (histMsgs st (resolveSid st osid)).length + 4 ∧
      (processInput st osid u (ExecOutcome.clean out steps)).1.memoryStats.totalMessages
        = st.memoryStats.totalMessages + 2) ∧
    (∀ l : List (String × String), l ≠ [] →
      (histMsgs (runCleanTurns (initAgent 8 6) l) "default_session").length
          = 4 * l.length ∧
      (runCleanTurns (initAgent 8 6) l).memoryStats.totalMessages = 2 * l.length ∧
      (histMsgs (runCleanTurns (initAgent 8 6) l) "default_session").length
        ≠ (runCleanTurns (initAgent 8 6) l).memoryStats.totalMessages) := by
  constructor
  · intro st osid u out steps
    refine ⟨?_, processInput_clean_total st osid u out steps⟩
    rw [processInput_clean_histMsgs]
    simp only [List.length_append, List.length_cons, List.length_nil]
  · intro l hl
    obtain ⟨-, h2, h3⟩ := runCleanTurns_spec l (initAgent 8 6)
    have hsid : (initAgent 8 6).currentSessionId = "default_session" := rfl
    rw [hsid] at h2
    have h0 : (histMsgs (initAgent 8 6) "default_session").length = 0 := rfl
    rw [h0] at h2
    have hlen : l.length ≠ 0 := by
      intro h
      exact hl (List.eq_nil_of_length_eq_zero h)
    have h3b : (runCleanTurns (initAgent 8 6) l).memoryStats.totalMessages
        = 2 * l.length := by
      rw [h3]
      have hz : (initAgent 8 6).memoryStats.totalMessages = 0 := rfl
      omega
    refine ⟨by omega, h3b, ?_⟩
    rw [h2, h3b]
    omega

/-- C10 witness: one turn on a fresh agent gives a log of 4 messages and a
total_messages of 2. -/
theorem c10_double_append_witness :
    (histMsgs (runCleanTurns (initAgent 8 6) [("u1", "a1")]) "default_session").length
        = 4 ∧
    (runCleanTurns (initAgent 8 6) [("u1", "a1")]).memoryStats.totalMessages = 2 ∧
    (histMsgs (runCleanTurns (initAgent 8 6) [("u1", "a1")]) "default_session").length
      ≠ (runCleanTurns (initAgent 8 6) [("u1", "a1")]).memoryStats.totalMessages := by
  have h := c10_double_append_per_turn.2 [("u1", "a1")] (by decide)
  simpa using h

/-- C5: an iteration-capped turn whose only recorded step ran the weather
tool under its registered name "weather" is returned as the generic stop
message — the fallback synthesis never fires because `process_input` matches
the CamelCase names, which are disjoint from the registered tool names — and
the session memory receives the raw stop message; even under the CamelCase
name (last two conjuncts) the synthesized response is produced but memory
still receives the raw stop message, because the save happens before the
rewrite. -/
theorem c5_iteration_cap_fallback_dead :
    (processInput (initAgent 8 6) none "What\x27s the weather in Tokyo?"
        (ExecOutcome.clean stopMessage [tokyoWeatherStep])).2.response
      = stopMessage ∧
    (histMsgs (processInput (initAgent 8 6) none "What\x27s the weather in Tokyo?"
        (ExecOutcome.clean stopMessage [tokyoWeatherStep])).1
        "default_session").getLast?
      = some ⟨Role.ai, stopMessage⟩ ∧
    agentToolNames.all (fun n => !(camelCaseToolNames.contains n)) = true ∧
    (processInput (initAgent 8 6) none "What\x27s the weather in Tokyo?"
        (ExecOutcome.clean stopMessage [tokyoWeatherStepCamel])).2.response
      = "\n\nCurrently 22°C and clear. Humidity is  with wind speed of .\n\n" ∧
    (histMsgs (processInput (initAgent 8 6) none "What\x27s the weather in Tokyo?"
        (ExecOutcome.clean stopMessage [tokyoWeatherStepCamel])).1
        "default_session").getLast?
      = some ⟨Role.ai, stopMessage⟩ := by
  decide

/-- C7: in Scenario A (turn "What's the weather in Tokyo?" with the stub
weather result), the recorded step carries the registered tool name
"weather", so the returned `function_calls` is empty — it does not contain
the expected `{tool: "WeatherTool", parameters: {city: "Tokyo"}}` entry — and
the response (the raw stop message on an iteration-capped run) does not
contain "22°C"; the expected entry appears only if the step is named
"WeatherTool", a name the agent's registered tools do not use. -/
theorem c7_scenario_a_function_calls_empty :
    (processInput (initAgent 8 6) none "What\x27s the weather in Tokyo?"
        (ExecOutcome.clean stopMessage [tokyoWeatherStep])).2.functionCallsOpt
      = some [] ∧
    (((processInput (initAgent 8 6) none "What\x27s the weather in Tokyo?"
        (ExecOutcome.clean stopMessage [tokyoWeatherStep])).2.functionCallsOpt.getD
        []).contains ⟨"WeatherTool", "Tokyo"⟩) = false ∧
    containsStr (processInput (initAgent 8 6) none "What\x27s the weather in Tokyo?"
        (ExecOutcome.clean stopMessage [tokyoWeatherStep])).2.response "22°C"
      = false ∧
    (processInput (initAgent 8 6) none "What\x27s the weather in Tokyo?"
        (ExecOutcome.clean stopMessage [tokyoWeatherStepCamel])).2.functionCallsOpt
      = some [⟨"WeatherTool", "Tokyo"⟩] := by
  decide

/-- C6 counterexample: a failure whose detail "boom" matches none of the
recovery patterns makes `process_input` return a normal result dict whose
response embeds the detail — nothing is raised, so no ProcessingError
propagates to the caller — while the memory is indeed left unchanged. -/
theorem c6_counterexample :
    processInput (initAgent 8 6) none "hi" (ExecOutcome.raiseErr "boom") =
      (initAgent 8 6,
        { response := "Error processing request: boom"
          toolCalls := []
          reasoning := "Error occurred while processing: hi"
          functionCallsOpt := none }) := by
  decide

/-- C6 (amended): on a parsing failure matching none of the recovery
patterns, the turn returns normally with a result whose response is
"Error processing request: " followed by the original failure detail (no
function_calls key), and the session memory store is left unchanged; no
ProcessingError is raised — `process_input` catches every exception. -/
theorem c6_unmatched_failure_returns_error_dict (st : AgentState)
    (osid : Option String) (u msg : String)
    (hnone : extractContent msg = none) :
    processInput st osid u (ExecOutcome.raiseErr msg) =
      (st,
        { response := "Error processing request: " ++ msg
          toolCalls := []
          reasoning := "Error occurred while processing: " ++ u
          functionCallsOpt := none }) := by
  simp only [processInput]
  rw [hnone]

/-- C6 witness: instantiation at a concrete unmatched failure detail. -/
theorem c6_unmatched_failure_witness :
    extractContent "upstream timeout" = none ∧
    processInput (initAgent 8 6) (some "s1") "hey"
        (ExecOutcome.raiseErr "upstream timeout") =
      ((initAgent 8 6 : AgentState),
        { response := "Error processing request: upstream timeout"
          toolCalls := []
          reasoning := "Error occurred while processing: hey"
          functionCallsOpt := none }) :=
  ⟨by decide,
    c6_unmatched_failure_returns_error_dict (initAgent 8 6) (some "s1") "hey"
      "upstream timeout" (by decide)⟩

/-- C2: the streaming path's post-stream memory update fails for every agent
state and input: `Agent` carries no `memory` attribute, so
`self.agent.memory.save_context(...)` raises AttributeError and the exchange
is never appended to the session store on the streaming path (and even the
intended call would have stored the placeholder "[Streaming response
completed]", not the final response text). -/
theorem c2_stream_save_attribute_error (st : AgentState) (u : String) :
    agentAttrNames.contains "memory" = false ∧
    streamSaveContext st u = Except.error
      "AttributeError: \x27Agent\x27 object has no attribute \x27memory\x27" := by
  constructor
  · decide
  · have hga : agentGetAttr st "memory" = Except.error
        "AttributeError: \x27Agent\x27 object has no attribute \x27memory\x27" := by
      unfold agentGetAttr
      rw [if_neg]
      · rfl
      · decide
    unfold streamSaveContext
    rw [hga]

/-! ## Streaming handler lemmas -/

theorem strAppendEmpty (s : String) : s ++ "" = s := by
  cases s with
  | mk d => exact congrArg String.mk (List.append_nil d)

theorem splitGo_ne_nil (sep : List Char) (fuel : Nat) (s acc : List Char) :
    splitGo sep fuel s acc ≠ [] := by
  induction fuel generalizing s acc with
  | zero => simp [splitGo]
  | succ n ih =>
    cases s with
    | nil => simp [splitGo]
    | cons c rest =>
      cases hd : dropPrefixCL sep (c :: rest) with
      | some rem => simp [splitGo, hd]
      | none =>
        simp only [splitGo, hd]
        exact ih rest (c :: acc)

theorem splitOnStr_ne_nil (s pat : String) : splitOnStr s pat ≠ [] := by
  unfold splitOnStr
  simp [splitGo_ne_nil]

theorem splitOnStr_length_gt_one (s pat : String)
    (h : containsStr s pat = true) : (splitOnStr s pat).length > 1 := by
  unfold containsStr at h
  have h1 : (splitOnStr s pat).length ≠ 1 := by
    simpa using h
  have h2 : (splitOnStr s pat).length ≠ 0 := by
    simpa [List.length_eq_zero] using splitOnStr_ne_nil s pat
  omega

theorem runHandler_append (h : HandlerState) (es1 es2 : List CallbackEvent) :
    runHandler h (es1 ++ es2) =
      ((runHandler (runHandler h es1).1 es2).1,
        (runHandler h es1).2 ++ (runHandler (runHandler h es1).1 es2).2) := by
  induction es1 generalizing h with
  | nil => simp [runHandler]
  | cons e es ih => simp [runHandler, ih]

theorem stepThinking (h : HandlerState) (t : String)
    (hs : h.sect = HSection.thinking) (hm : markerFree t) (hne : t ≠ "") :
    onLlmNewToken h t =
      ({ h with thinkingBuffer := h.thinkingBuffer ++ t },
        [SEvent.thinking (escapeSpecialChars t)]) := by
  obtain ⟨m1, m2⟩ := hm
  simp [onLlmNewToken, m1, m2, hs, hne]

theorem stepTool (h : HandlerState) (t : String)
    (hs : h.sect = HSection.tool) (hm : markerFree t) :
    onLlmNewToken h t = (h, []) := by
  obtain ⟨m1, m2⟩ := hm
  simp [onLlmNewToken, m1, m2, hs]

theorem stepResponse (h : HandlerState) (t : String)
    (hs : h.sect = HSection.response) (hm : markerFree t) (hne : t ≠ "") :
    onLlmNewToken h t =
      ({ h with responseBuffer := h.responseBuffer ++ t },
        [SEvent.token (escapeSpecialChars t),
          SEvent.structuredUpdate (trimStr h.thinkingBuffer) h.functionCalls
            (trimStr (h.responseBuffer ++ t))]) := by
  obtain ⟨m1, m2⟩ := hm
  simp [onLlmNewToken, m1, m2, hs, hne]

theorem stepEndMarker (h : HandlerState) :
    onLlmNewToken h "</think>" = ({ h with sect := HSection.response }, []) := by
  have c1 : containsStr "</think>" "<think>" = false := by decide
  have c2 : containsStr "</think>" "</think>" = true := by decide
  have c3 : splitOnStr "</think>" "</think>" = ["", ""] := by decide
  simp [onLlmNewToken, c1, c2, c3]

theorem runHandler_thinkingPhase (ts : List String) (h : HandlerState)
    (hs : h.sect = HSection.thinking)
    (hts : ∀ t ∈ ts, markerFree t ∧ t ≠ "") :
    ∃ tb, runHandler h (ts.map CallbackEvent.llmToken)
      = ({ h with thinkingBuffer := tb },
          ts.map (fun t => SEvent.thinking (escapeSpecialChars t))) := by
  induction ts generalizing h with
  | nil => exact ⟨h.thinkingBuffer, rfl⟩
  | cons t ts ih =>
    obtain ⟨htm, htne⟩ := hts t (List.mem_cons_self t ts)
    have hstep := stepThinking h t hs htm htne
    obtain ⟨tb, hrest⟩ := ih { h with thinkingBuffer := h.thinkingBuffer ++ t }
      hs (fun x hx => hts x (List.mem_cons_of_mem t hx))
    refine ⟨tb, ?_⟩
    simp [runHandler, handlerStep, hstep, hrest]

theorem runHandler_toolPhase (ts : List String) (h : HandlerState)
    (hs : h.sect = HSection.tool) (hts : ∀ t ∈ ts, markerFree t) :
    runHandler h (ts.map CallbackEvent.llmToken) = (h, []) := by
  induction ts with
  | nil => rfl
  | cons t ts ih =>
    simp [runHandler, handlerStep,
      stepTool h t hs (hts t (List.mem_cons_self t ts)),
      ih (fun x hx => hts x (List.mem_cons_of_mem t hx))]

theorem runHandler_answerPhase (ts : List String) (h : HandlerState)
    (hs : h.sect = HSection.response)
    (hts : ∀ t ∈ ts, markerFree t ∧ t ≠ "") :
    ∃ rb evs, runHandler h (ts.map CallbackEvent.llmToken)
        = ({ h with responseBuffer := rb }, evs) ∧
      evs.map SEvent.kind
        = ts.flatMap (fun _ => [EventKind.tokenK, EventKind.structuredUpdateK]) ∧
      (∀ e ∈ evs, e.kind ≠ EventKind.toolSeparatorK) := by
  induction ts generalizing h with
  | nil => exact ⟨h.responseBuffer, [], rfl, rfl, by intro e he; cases he⟩
  | cons t ts ih =>
    obtain ⟨htm, htne⟩ := hts t (List.mem_cons_self t ts)
    have hstep := stepResponse h t hs htm htne
    obtain ⟨rb, evs, hrest, hkinds, hfilt⟩ :=
      ih { h with responseBuffer := h.responseBuffer ++ t } hs
        (fun x hx => hts x (List.mem_cons_of_mem t hx))
    refine ⟨rb,
      SEvent.token (escapeSpecialChars t)
        :: SEvent.structuredUpdate (trimStr h.thinkingBuffer) h.functionCalls
            (trimStr (h.responseBuffer ++ t))
        :: evs, ?_, ?_, ?_⟩
    · simp [runHandler, handlerStep, hstep, hrest]
    · simp [hkinds, SEvent.kind]
    · intro e he
      simp only [List.mem_cons] at he
      rcases he with rfl | rfl | he
      · simp [SEvent.kind]
      · simp [SEvent.kind]
      · exact hfilt e he

theorem runHandler_append_eq (h h1 h2 : HandlerState)
    (es1 es2 : List CallbackEvent) (E1 E2 : List SEvent)
    (ha : runHandler h es1 = (h1, E1)) (hb : runHandler h1 es2 = (h2, E2)) :
    runHandler h (es1 ++ es2) = (h2, E1 ++ E2) := by
  rw [runHandler_append, ha]
  simp only
  rw [hb]

theorem thinkingEvents_map_kind (ts : List String) :
    List.map (SEvent.kind ∘ fun t => SEvent.thinking (escapeSpecialChars t)) ts
      = List.replicate ts.length EventKind.thinkingK := by
  induction ts with
  | nil => rfl
  | cons a as ih => simp [SEvent.kind, ih, Function.comp, List.replicate_succ]

theorem thinkingEvents_filter_sep (ts : List String) :
    ((ts.map (fun t => SEvent.thinking (escapeSpecialChars t))).filter
      (fun e => e.kind == EventKind.toolSeparatorK)) = [] := by
  induction ts with
  | nil => rfl
  | cons a as ih => simp [SEvent.kind, ih]

/-- C4: for a streamed turn invoking exactly one tool (driven by the lifecycle
trace `singleToolTrace`, with marker-free non-empty token chunks), the emitted
event sequence is, in order: one thinking event per pre-tool chunk, the
tool-open separator, no events at all for tool-phase chunks (suppression),
the tool-close separator, one thinking event per post-tool chunk, then one
token event immediately followed by one structured_update per answer chunk,
and exactly one terminal structured_output; the only tool_separator events
are the open and close separators, in that order. -/
theorem c4_stream_event_order (ts1 ts2 ts3 ans : List String)
    (toolName inputStr out cs ch : String)
    (h1 : ∀ t ∈ ts1, markerFree t ∧ t ≠ "")
    (h2 : ∀ t ∈ ts2, markerFree t)
    (h3 : ∀ t ∈ ts3, markerFree t ∧ t ≠ "")
    (h4 : ∀ t ∈ ans, markerFree t ∧ t ≠ "") :
    (emittedEvents (singleToolTrace ts1 ts2 ts3 ans toolName inputStr out cs ch)).map
        SEvent.kind
      = ts1.map (fun _ => EventKind.thinkingK)
        ++ [EventKind.toolSeparatorK, EventKind.toolSeparatorK]
        ++ ts3.map (fun _ => EventKind.thinkingK)
        ++ ans.flatMap (fun _ => [EventKind.tokenK, EventKind.structuredUpdateK])
        ++ [EventKind.structuredOutputK] ∧
    (emittedEvents (singleToolTrace ts1 ts2 ts3 ans toolName inputStr out cs ch)).filter
        (fun e => e.kind == EventKind.toolSeparatorK)
      = [SEvent.toolSeparator ("\n---Using " ++ toolName ++ "---\n"),
          SEvent.toolSeparator "\n---Tool Complete---\n"] := by
  obtain ⟨tb1, hA2⟩ := runHandler_thinkingPhase ts1 initHandler rfl h1
  have hA1 : runHandler initHandler [CallbackEvent.llmStart] = (initHandler, []) := rfl
  have hA3 : runHandler ⟨HSection.thinking, tb1, "", []⟩
      [CallbackEvent.toolStart toolName inputStr]
      = (⟨HSection.tool, tb1, "", [⟨toolName, inputStr⟩]⟩,
          [SEvent.toolSeparator ("\n---Using " ++ toolName ++ "---\n")]) := rfl
  have hA4 : runHandler ⟨HSection.tool, tb1, "", [⟨toolName, inputStr⟩]⟩
      (ts2.map CallbackEvent.llmToken)
      = (⟨HSection.tool, tb1, "", [⟨toolName, inputStr⟩]⟩, []) :=
    runHandler_toolPhase ts2 _ rfl h2
  have hA5 : runHandler ⟨HSection.tool, tb1, "", [⟨toolName, inputStr⟩]⟩
      [CallbackEvent.toolEnd]
      = (⟨HSection.thinking, tb1, "", [⟨toolName, inputStr⟩]⟩,
          [SEvent.toolSeparator "\n---Tool Complete---\n"]) := rfl
  obtain ⟨tb2, hA6⟩ := runHandler_thinkingPhase ts3
    ⟨HSection.thinking, tb1, "", [⟨toolName, inputStr⟩]⟩ rfl h3
  have hA7 : runHandler ⟨HSection.thinking, tb2, "", [⟨toolName, inputStr⟩]⟩
      [CallbackEvent.llmToken "</think>"]
      = (⟨HSection.response, tb2, "", [⟨toolName, inputStr⟩]⟩, []) := by
    simp [runHandler, handlerStep, stepEndMarker]
  obtain ⟨rb, evs, hA8, hkinds, hnosep⟩ := runHandler_answerPhase ans
    ⟨HSection.response, tb2, "", [⟨toolName, inputStr⟩]⟩ rfl h4
  have hA9 : runHandler ⟨HSection.response, tb2, rb, [⟨toolName, inputStr⟩]⟩
      [CallbackEvent.chainEnd (some out) cs ch]
      = (⟨HSection.response, tb2, out, [⟨toolName, inputStr⟩]⟩,
          [SEvent.structuredOutput (trimStr tb2) [⟨toolName, inputStr⟩]
            (trimStr out) cs ch]) := rfl
  have c2 := runHandler_append_eq _ _ _ _ _ _ _ hA1 hA2
  have c3 := runHandler_append_eq _ _ _ _ _ _ _ c2 hA3
  have c4 := runHandler_append_eq _ _ _ _ _ _ _ c3 hA4
  have c5 := runHandler_append_eq _ _ _ _ _ _ _ c4 hA5
  have c6 := runHandler_append_eq _ _ _ _ _ _ _ c5 hA6
  have c7 := runHandler_append_eq _ _ _ _ _ _ _ c6 hA7
  have c8 := runHandler_append_eq _ _ _ _ _ _ _ c7 hA8
  have c9 := runHandler_append_eq _ _ _ _ _ _ _ c8 hA9
  have hemit : emittedEvents (singleToolTrace ts1 ts2 ts3 ans toolName inputStr out cs ch)
      = [] ++ ts1.map (fun t => SEvent.thinking (escapeSpecialChars t))
          ++ [SEvent.toolSeparator ("\n---Using " ++ toolName ++ "---\n")]
          ++ []
          ++ [SEvent.toolSeparator "\n---Tool Complete---\n"]
          ++ ts3.map (fun t => SEvent.thinking (escapeSpecialChars t))
          ++ []
          ++ evs
          ++ [SEvent.structuredOutput (trimStr tb2) [⟨toolName, inputStr⟩]
              (trimStr out) cs ch] := by
    unfold emittedEvents singleToolTrace
    rw [c9]
  have f2 : evs.filter (fun e => e.kind == EventKind.toolSeparatorK) = [] := by
    rw [List.filter_eq_nil_iff]
    intro e he
    simpa using hnosep e he
  constructor
  · rw [hemit]
    simp only [List.map_append, List.map_nil, List.nil_append, List.append_nil,
      List.map_map, hkinds]
    simp [SEvent.kind, thinkingEvents_map_kind, List.append_assoc]
  · rw [hemit]
    simp only [List.filter_append, f2, thinkingEvents_filter_sep]
    simp [SEvent.kind]

/-- C4 witness: Scenario C — 3 thinking tokens, 1 tool call with no tool-phase
tokens, 2 answer tokens. -/
theorem c4_stream_event_order_witness :
    (emittedEvents (singleToolTrace ["Let me ", "check ", "the weather"] [] []
        ["It is", " sunny"] "weather" "Tokyo" "It is sunny" "" "")).map SEvent.kind
      = [EventKind.thinkingK, EventKind.thinkingK, EventKind.thinkingK,
          EventKind.toolSeparatorK, EventKind.toolSeparatorK,
          EventKind.tokenK, EventKind.structuredUpdateK,
          EventKind.tokenK, EventKind.structuredUpdateK,
          EventKind.structuredOutputK] ∧
    (emittedEvents (singleToolTrace ["Let me ", "check ", "the weather"] [] []
        ["It is", " sunny"] "weather" "Tokyo" "It is sunny" "" "")).filter
        (fun e => e.kind == EventKind.toolSeparatorK)
      = [SEvent.toolSeparator "\n---Using weather---\n",
          SEvent.toolSeparator "\n---Tool Complete---\n"] := by
  obtain ⟨ha, hb⟩ := c4_stream_event_order ["Let me ", "check ", "the weather"]
    [] [] ["It is", " sunny"] "weather" "Tokyo" "It is sunny" "" ""
    (by decide) (by decide) (by decide) (by decide)
  constructor
  · rw [ha]; decide
  · rw [hb]; decide

/-- C8 counterexample: a chunk carrying BOTH markers, "<think>hi</think>yo",
is handled by the start-marker branch only (the end-marker branch is an
`elif`): the section ends as thinking — not token/response as the claim
demands for every chunk containing the end marker — no token event is
emitted, and the emitted thinking content still carries the literal
end marker. -/
theorem c8_counterexample :
    (onLlmNewToken ⟨HSection.response, "", "", []⟩ "<think>hi</think>yo").1.sect
        = HSection.thinking ∧
    ¬ (onLlmNewToken ⟨HSection.response, "", "", []⟩ "<think>hi</think>yo").1.sect
        = HSection.response ∧
    (onLlmNewToken ⟨HSection.response, "", "", []⟩ "<think>hi</think>yo").2
        = [SEvent.thinking "hi</think>yo"] ∧
    ((onLlmNewToken ⟨HSection.response, "", "", []⟩ "<think>hi</think>yo").2.all
        (fun e => !(e.kind == EventKind.tokenK))) = true := by
  decide

/-- C8 (amended): per-chunk marker handling, with the start-marker branch
taking precedence.  (1) A chunk containing the start marker switches the
section to thinking and emits (when non-empty) the chunk with every start
marker occurrence stripped — even if the chunk also contains the end marker.
(2) A chunk containing the end marker but NOT the start marker flushes the
text before the first end marker as a thinking event, switches the section to
response, and forwards as the first answer token the text between the first
and second end markers (the whole remainder when the end marker occurs once),
paired with its structured_update.  Detection is per-chunk; split markers are
not handled. -/
theorem c8_marker_per_chunk (h : HandlerState) (tok : String) :
    (containsStr tok "<think>" = true →
      (onLlmNewToken h tok).1.sect = HSection.thinking ∧
      (onLlmNewToken h tok).1.thinkingBuffer
        = h.thinkingBuffer ++ replaceStr tok "<think>" "" ∧
      (onLlmNewToken h tok).2
        = (if replaceStr tok "<think>" "" = "" then []
           else [SEvent.thinking
             (escapeSpecialChars (replaceStr tok "<think>" ""))])) ∧
    (containsStr tok "<think>" = false → containsStr tok "</think>" = true →
      (onLlmNewToken h tok).1.sect = HSection.response ∧
      (onLlmNewToken h tok).2
        = (if (splitOnStr tok "</think>").headD "" = "" then []
           else [SEvent.thinking
             (escapeSpecialChars ((splitOnStr tok "</think>").headD ""))])
          ++ (if (splitOnStr tok "</think>").getD 1 "" = "" then []
           else [SEvent.token
               (escapeSpecialChars ((splitOnStr tok "</think>").getD 1 "")),
             SEvent.structuredUpdate
               (trimStr (h.thinkingBuffer ++ (splitOnStr tok "</think>").headD ""))
               h.functionCalls
               (trimStr (h.responseBuffer
                 ++ (splitOnStr tok "</think>").getD 1 ""))])) := by
  constructor
  · intro hstart
    by_cases hc : replaceStr tok "<think>" "" = ""
    · simp [onLlmNewToken, hstart, hc, strAppendEmpty]
    · simp [onLlmNewToken, hstart, hc]
  · intro hs he
    have hgt := splitOnStr_length_gt_one tok "</think>" he
    obtain ⟨p0, p1, r, hparts⟩ :
        ∃ p0 p1 r, splitOnStr tok "</think>" = p0 :: p1 :: r := by
      cases hsp : splitOnStr tok "</think>" with
      | nil => rw [hsp] at hgt; simp at hgt
      | cons x l =>
        cases l with
        | nil => rw [hsp] at hgt; simp at hgt
        | cons y rr => exact ⟨x, y, rr, rfl⟩
    rw [hparts]
    by_cases hp0 : p0 = ""
    · by_cases hp1 : p1 = ""
      · simp [onLlmNewToken, hs, he, hparts, hp0, hp1, strAppendEmpty]
      · simp [onLlmNewToken, hs, he, hparts, hp0, hp1, strAppendEmpty]
    · by_cases hp1 : p1 = ""
      · simp [onLlmNewToken, hs, he, hparts, hp0, hp1, strAppendEmpty]
      · simp [onLlmNewToken, hs, he, hparts, hp0, hp1, strAppendEmpty]

/-- C8 witness: the start-marker rule at chunk "x<think>y" and the end-marker
rule at chunk "a</think>b", both from a fresh handler. -/
theorem c8_marker_per_chunk_witness :
    ((onLlmNewToken initHandler "x<think>y").1.sect = HSection.thinking ∧
      (onLlmNewToken initHandler "x<think>y").1.thinkingBuffer = "xy" ∧
      (onLlmNewToken initHandler "x<think>y").2 = [SEvent.thinking "xy"]) ∧
    ((onLlmNewToken initHandler "a</think>b").1.sect = HSection.response ∧
      (onLlmNewToken initHandler "a</think>b").2
        = [SEvent.thinking "a", SEvent.token "b",
            SEvent.structuredUpdate "a" [] "b"]) := by
  have h1 := (c8_marker_per_chunk initHandler "x<think>y").1 (by decide)
  have h2 := (c8_marker_per_chunk initHandler "a</think>b").2 (by decide) (by decide)
  refine ⟨⟨h1.1, ?_, ?_⟩, h2.1, ?_⟩
  · rw [h1.2.1]; decide
  · rw [h1.2.2]; decide
  · rw [h2.2]; decide

end TripAgent
